import Mathlib

/-!
Verification development for the CRM ETL repository.

Shallow embedding of the synchronization pipeline:
`src/utils/helpers.ts` (string helpers), `src/repositories/CompanyRepository.ts`
and `ContactRepository` (keyed stores over an in-memory model of the SQLite
tables), `src/services/HubSpotApiService.ts` (cursor pagination and health
check), and `EtlService` (orchestrator: phases, counters, error list).

Modelling conventions, used consistently below:
- uuid generation (`generateId`) is modelled as a fresh-id counter `nextId`
  carried by the database state; local ids are abstract `Nat` values.
- `getCurrentTimestamp` is modelled as a logical clock `clock` carried by the
  database state, ticked on each read, so distinct reads give distinct times.
- SQLite rows are lists in insertion order; `db.get` (first matching row) is
  `List.find?`; SQL `UPDATE ... WHERE id = ?` maps over the list.
- persistence is total in the model (no storage-constraint failures), so the
  per-record catch branches of the ETL loops, which only fire on storage or
  transform exceptions, have no failing source here.
- `logger.warn` skip messages of the ETL loops are recorded in explicit skip
  lists, so skip accounting is observable.
-/

/-- Whitespace trimming of JS `String.prototype.trim`: drop whitespace
characters from both ends. -/
def jsTrim (s : String) : String :=
  String.mk
    (((s.toList.dropWhile Char.isWhitespace).reverse.dropWhile
        Char.isWhitespace).reverse)

/-- `cleanString` from `src/utils/helpers.ts`: `str?.trim() || ''`. -/
def cleanString (str : Option String) : String :=
  jsTrim (str.getD "")

/-- Character class `[^\s@]` of the email regex in `isValidEmail`. -/
def emailChar (c : Char) : Bool :=
  !c.isWhitespace && c != '@'

/-- `isValidEmail` from `src/utils/helpers.ts`: tests the regex
`^[^\s@]+@[^\s@]+\.[^\s@]+$` — a nonempty run of non-space non-at characters,
an at sign, then a domain part that is nonempty, free of spaces and at signs,
and decomposable as `B.C` with `B` and `C` nonempty. -/
def isValidEmail (email : String) : Bool :=
  let l := email.toList
  let localPart := l.takeWhile (fun c => c != '@')
  let rest := l.dropWhile (fun c => c != '@')
  match rest with
  | [] => false
  | _ :: domainPart =>
    !localPart.isEmpty && localPart.all emailChar &&
    !domainPart.isEmpty && domainPart.all emailChar &&
    ((domainPart.drop 1).dropLast.contains '.')

/-- `Company` from `src/types/schemas.ts` (`CompanySchema`). -/
structure Company where
  id : Nat
  hubspot_id : String
  name : String
  domain : String
  created_at : Nat
deriving Repr, DecidableEq

/-- `Contact` from `src/types/schemas.ts` (`ContactSchema`); `firstname`,
`lastname` and `company_id` are optional (SQL `NULL` is `none`). -/
structure Contact where
  id : Nat
  hubspot_id : String
  firstname : Option String
  lastname : Option String
  email : String
  company_id : Option Nat
  created_at : Nat
deriving Repr, DecidableEq

/-- `CreateCompany` from `src/types/schemas.ts`. -/
structure CreateCompany where
  hubspot_id : String
  name : String
  domain : String
deriving Repr, DecidableEq

/-- `UpdateCompany` from `src/types/schemas.ts`: every field optional;
`none` is an absent (`undefined`) field, which the repository update skips. -/
structure UpdateCompany where
  hubspot_id : Option String
  name : Option String
  domain : Option String
deriving Repr, DecidableEq

/-- `CreateContact` from `src/types/schemas.ts`. -/
structure CreateContact where
  hubspot_id : String
  firstname : Option String
  lastname : Option String
  email : String
  company_id : Option Nat
deriving Repr, DecidableEq

/-- `UpdateContact` from `src/types/schemas.ts`: every field optional;
`none` is an absent (`undefined`) field, which the repository update skips. -/
structure UpdateContact where
  hubspot_id : Option String
  firstname : Option String
  lastname : Option String
  email : Option String
  company_id : Option Nat
deriving Repr, DecidableEq

/-- `AppError` from `src/types/common.ts`: a message and an HTTP status code. -/
structure AppError where
  message : String
  statusCode : Nat
deriving Repr, DecidableEq

/-- The persistence state of `src/database/connection.ts`: the two SQLite
tables as lists in insertion order, plus the id supply and logical clock
modelling `generateId` and `getCurrentTimestamp`. -/
structure Database where
  companies : List Company
  contacts : List Contact
  nextId : Nat
  clock : Nat
deriving Repr, DecidableEq

namespace CompanyRepository

/-- `CompanyRepository.findById`: first row with the given local id. -/
def findById (db : Database) (id : Nat) : Option Company :=
  db.companies.find? (fun c => c.id == id)

/-- `CompanyRepository.findByHubspotId`: first row with the given external id. -/
def findByHubspotId (db : Database) (hubspotId : String) : Option Company :=
  db.companies.find? (fun c => c.hubspot_id == hubspotId)

/-- `CompanyRepository.create`: fresh id and current timestamp, row appended. -/
def create (db : Database) (companyData : CreateCompany) : Company × Database :=
  let company : Company :=
    { id := db.nextId
      hubspot_id := companyData.hubspot_id
      name := companyData.name
      domain := companyData.domain
      created_at := db.clock }
  (company,
    { db with
      companies := db.companies ++ [company]
      nextId := db.nextId + 1
      clock := db.clock + 1 })

/-- The field assignments built by `CompanyRepository.update`: a field enters
`updateFields` exactly when it is defined (`!== undefined`) in `updates`;
`id` and `created_at` are never assigned. -/
def applyUpdate (updates : UpdateCompany) (c : Company) : Company :=
  { c with
    hubspot_id := updates.hubspot_id.getD c.hubspot_id
    name := updates.name.getD c.name
    domain := updates.domain.getD c.domain }

/-- `CompanyRepository.update`: look up by local id (absent row gives `none`);
with no defined field return the existing row unchanged; otherwise run the SQL
`UPDATE` (rewrite every row whose id matches) and re-fetch by id. -/
def update (db : Database) (id : Nat) (updates : UpdateCompany) :
    Option Company × Database :=
  match findById db id with
  | none => (none, db)
  | some existingCompany =>
    if updates.hubspot_id.isNone && updates.name.isNone && updates.domain.isNone then
      (some existingCompany, db)
    else
      let companies :=
        db.companies.map (fun c => if c.id == id then applyUpdate updates c else c)
      let db2 := { db with companies := companies }
      (findById db2 id, db2)

/-- `CompanyRepository.upsertByHubspotId`: look up by external id; if found,
update that row from the candidate (all three fields defined); else create.
The source's non-null assertion on the update result is modelled with `getD`. -/
def upsertByHubspotId (db : Database) (companyData : CreateCompany) :
    Company × Database :=
  match findByHubspotId db companyData.hubspot_id with
  | some existingCompany =>
    let (updated, db2) :=
      update db existingCompany.id
        { hubspot_id := some companyData.hubspot_id
          name := some companyData.name
          domain := some companyData.domain }
    (updated.getD existingCompany, db2)
  | none => create db companyData

/-- `CompanyRepository.count`. -/
def count (db : Database) : Nat :=
  db.companies.length

end CompanyRepository

/-- JS falsiness `x || null` on an optional string column value, as used by
`ContactRepository.create` when binding `firstname`, `lastname`: absent or
empty becomes SQL `NULL`. -/
def orNull (o : Option String) : Option String :=
  match o with
  | some s => if s == "" then none else some s
  | none => none

namespace ContactRepository

/-- `ContactRepository.findById`. -/
def findById (db : Database) (id : Nat) : Option Contact :=
  db.contacts.find? (fun c => c.id == id)

/-- `ContactRepository.findByHubspotId`. -/
def findByHubspotId (db : Database) (hubspotId : String) : Option Contact :=
  db.contacts.find? (fun c => c.hubspot_id == hubspotId)

/-- `ContactRepository.findByEmail`. -/
def findByEmail (db : Database) (email : String) : Option Contact :=
  db.contacts.find? (fun c => c.email == email)

/-- `ContactRepository.create`: fresh id and timestamp; the stored row binds
`firstname || null`, `lastname || null`, `company_id || null` (the id being
abstract, only the string fields need the falsiness normalization); the
returned object spreads the candidate unnormalized, as the source does. -/
def create (db : Database) (contactData : CreateContact) : Contact × Database :=
  let contact : Contact :=
    { id := db.nextId
      hubspot_id := contactData.hubspot_id
      firstname := contactData.firstname
      lastname := contactData.lastname
      email := contactData.email
      company_id := contactData.company_id
      created_at := db.clock }
  let row : Contact :=
    { contact with
      firstname := orNull contactData.firstname
      lastname := orNull contactData.lastname }
  (contact,
    { db with
      contacts := db.contacts ++ [row]
      nextId := db.nextId + 1
      clock := db.clock + 1 })

/-- The field assignments built by `ContactRepository.update`: a field enters
`updateFields` exactly when it is defined (`!== undefined`) in `updates`;
`id` and `created_at` are never assigned. -/
def applyUpdate (updates : UpdateContact) (c : Contact) : Contact :=
  { c with
    hubspot_id := updates.hubspot_id.getD c.hubspot_id
    firstname :=
      match updates.firstname with
      | some s => some s
      | none => c.firstname
    lastname :=
      match updates.lastname with
      | some s => some s
      | none => c.lastname
    email := updates.email.getD c.email
    company_id :=
      match updates.company_id with
      | some i => some i
      | none => c.company_id }

/-- `ContactRepository.update`: same shape as the company update. -/
def update (db : Database) (id : Nat) (updates : UpdateContact) :
    Option Contact × Database :=
  match findById db id with
  | none => (none, db)
  | some existingContact =>
    if updates.hubspot_id.isNone && updates.firstname.isNone &&
        updates.lastname.isNone && updates.email.isNone &&
        updates.company_id.isNone then
      (some existingContact, db)
    else
      let contacts :=
        db.contacts.map (fun c => if c.id == id then applyUpdate updates c else c)
      let db2 := { db with contacts := contacts }
      (findById db2 id, db2)

/-- `ContactRepository.upsertByHubspotId`: look up by external id; if found,
update that row from the candidate — `hubspot_id` and `email` are always
defined on a `CreateContact`, while `firstname`, `lastname`, `company_id`
pass through as possibly absent; else create. -/
def upsertByHubspotId (db : Database) (contactData : CreateContact) :
    Contact × Database :=
  match findByHubspotId db contactData.hubspot_id with
  | some existingContact =>
    let (updated, db2) :=
      update db existingContact.id
        { hubspot_id := some contactData.hubspot_id
          firstname := contactData.firstname
          lastname := contactData.lastname
          email := some contactData.email
          company_id := contactData.company_id }
    (updated.getD existingContact, db2)
  | none => create db contactData

/-- `ContactRepository.count`. -/
def count (db : Database) : Nat :=
  db.contacts.length

end ContactRepository

namespace ContactService

/-- `ContactService.createContact` from `src/services/ContactService.ts`:
reject an invalid email with a 400 before anything else; then reject an
existing external id (409), an existing email (409), or a dangling company
reference (404); otherwise create. The uuid-format check on `company_id`
(`isValidUuid`) concerns the textual uuid shape of route input and has no
counterpart here where local ids are abstract `Nat`s; it sits after the email
check and before the existence checks and rejects no abstract id. -/
def createContact (db : Database) (contactData : CreateContact) :
    Except AppError (Contact × Database) :=
  if !(isValidEmail contactData.email) then
    .error { message := "Invalid email format", statusCode := 400 }
  else
    match ContactRepository.findByHubspotId db contactData.hubspot_id with
    | some _ =>
      .error { message := "Contact with this hubspot_id already exists", statusCode := 409 }
    | none =>
      match ContactRepository.findByEmail db contactData.email with
      | some _ =>
        .error { message := "Contact with this email already exists", statusCode := 409 }
      | none =>
        match contactData.company_id with
        | some companyId =>
          match CompanyRepository.findById db companyId with
          | none => .error { message := "Company not found", statusCode := 404 }
          | some _ => .ok (ContactRepository.create db contactData)
        | none => .ok (ContactRepository.create db contactData)

/-- `ContactService.upsertContactByHubspotId`: delegates to the repository
upsert with no validation; the catch branch only rewraps storage failures,
which the total persistence model has none of. -/
def upsertContactByHubspotId (db : Database) (contactData : CreateContact) :
    Contact × Database :=
  ContactRepository.upsertByHubspotId db contactData

end ContactService

namespace CompanyService

/-- `CompanyService.upsertCompanyByHubspotId`: delegates to the repository. -/
def upsertCompanyByHubspotId (db : Database) (companyData : CreateCompany) :
    Company × Database :=
  CompanyRepository.upsertByHubspotId db companyData

end CompanyService

/-- A raw company record from HubSpot (`HubSpotCompany` in
`src/types/hubspot.ts`), with the fetched properties flattened in; every
property may be absent. -/
structure HubSpotCompany where
  id : String
  name : Option String
  domain : Option String
deriving Repr, DecidableEq

/-- A raw contact record from HubSpot (`HubSpotContact` in
`src/types/hubspot.ts`), with the fetched properties flattened in. -/
structure HubSpotContact where
  id : String
  firstname : Option String
  lastname : Option String
  email : Option String
  associatedcompanyid : Option String
deriving Repr, DecidableEq

/-- One page of a HubSpot list response: `results` plus the optional
`paging.next.after` cursor (`HubSpotBaseResponse` in `src/types/hubspot.ts`). -/
structure HsPage (α : Type) where
  results : List α
  nextAfter : Option String
deriving Repr, DecidableEq

/-- The external HubSpot service as the pipeline observes it: the outcome of
the health-check request, and the successive page responses each paginated
resource will serve (an exhausted page list means the next request fails in
transport). -/
structure HubSpotEnv where
  healthRequest : Except String Unit
  companyPages : List (HsPage HubSpotCompany)
  contactPages : List (HsPage HubSpotContact)

namespace HubSpotApiService

/-- The `while (hasMore)` pagination loop shared by
`HubSpotApiService.getAllContacts` and `getAllCompanies`
(`src/services/HubSpotApiService.ts`): each iteration issues one request
carrying the optional `after` cursor, appends the page's `results`, and
continues exactly when the response carries a `paging.next` cursor. The
result pairs the concatenated records with the list of cursors the issued
requests carried, in order; a failed request aborts the whole fetch. -/
def fetchAllPages {α : Type} :
    List (HsPage α) → Option String → Except String (List α × List (Option String))
  | [], _ => .error ("HubSpot request failed")
  | page :: rest, after =>
    match page.nextAfter with
    | none => .ok (page.results, [after])
    | some cursor =>
      match fetchAllPages rest (some cursor) with
      | .ok (records, requests) => .ok (page.results ++ records, after :: requests)
      | .error e => .error e

/-- `HubSpotApiService.getAllContacts`: run the pagination loop from no
cursor and return the accumulated records. -/
def getAllContacts (env : HubSpotEnv) : Except String (List HubSpotContact) :=
  (fetchAllPages env.contactPages none).map (fun r => r.1)

/-- `HubSpotApiService.getAllCompanies`: same loop over the companies
resource. -/
def getAllCompanies (env : HubSpotEnv) : Except String (List HubSpotCompany) :=
  (fetchAllPages env.companyPages none).map (fun r => r.1)

/-- `HubSpotApiService.healthCheck`: one minimal request; any failure is
caught and reported as `false`, success as `true` — the operation is total
and Boolean-valued by construction. -/
def healthCheck (r : Except String Unit) : Bool :=
  match r with
  | .ok _ => true
  | .error _ => false

end HubSpotApiService

/-- `EtlSyncStatus` from `src/types/hubspot.ts`. -/
structure EtlSyncStatus where
  isRunning : Bool
  startedAt : Option Nat
  completedAt : Option Nat
  contactsProcessed : Nat
  companiesProcessed : Nat
  errors : List String
deriving Repr, DecidableEq

/-- `EtlSyncResponse` from `src/types/schemas.ts`. -/
structure EtlSyncResponse where
  message : String
  contactsSynced : Nat
  companiesSynced : Nat
  syncedAt : Nat
deriving Repr, DecidableEq

/-- The orchestrator's state: the status object of `EtlService`, the shared
database, and the accumulated skip warnings of the two phase loops (the
`logger.warn` calls of the `else` branches, made observable). -/
structure EtlState where
  syncStatus : EtlSyncStatus
  db : Database
  companySkips : List String
  contactSkips : List String
deriving Repr, DecidableEq

namespace EtlService

/-- `EtlService.transformHubspotCompany`: trim `name` and `domain`; an empty
or missing value falls back to the placeholder defaults
`Unknown Company` / `unknown.com` via JS `||`. -/
def transformHubspotCompany (hubspotCompany : HubSpotCompany) : CreateCompany :=
  let name := cleanString hubspotCompany.name
  let domain := cleanString hubspotCompany.domain
  { hubspot_id := hubspotCompany.id
    name := if name == "" then "Unknown Company" else name
    domain := if domain == "" then "unknown.com" else domain }

/-- `EtlService.transformHubspotContact`: trim the name and email properties
(empty trimmed names become absent via `|| undefined`); when the raw record
carries a truthy `associatedcompanyid`, resolve it against the company store
by external id and take the found company's local id, degrading to no
association when the lookup finds nothing. -/
def transformHubspotContact (db : Database) (hubspotContact : HubSpotContact) :
    CreateContact :=
  let firstname := cleanString hubspotContact.firstname
  let lastname := cleanString hubspotContact.lastname
  let email := cleanString hubspotContact.email
  let companyId : Option Nat :=
    match hubspotContact.associatedcompanyid with
    | some assoc =>
      if assoc == "" then none
      else (CompanyRepository.findByHubspotId db assoc).map (fun c => c.id)
    | none => none
  { hubspot_id := hubspotContact.id
    firstname := if firstname == "" then none else some firstname
    lastname := if lastname == "" then none else some lastname
    email := email
    company_id := companyId }

/-- One iteration of the company loop of `EtlService.syncCompanies`:
transform; if the transformed `name` and `domain` are truthy, upsert and
bump the counter; otherwise record the skip warning. -/
def syncCompaniesStep (st : EtlState) (hubspotCompany : HubSpotCompany) : EtlState :=
  let companyData := transformHubspotCompany hubspotCompany
  if companyData.name != "" && companyData.domain != "" then
    let (_, db2) := CompanyService.upsertCompanyByHubspotId st.db companyData
    { st with
      db := db2
      syncStatus :=
        { st.syncStatus with
          companiesProcessed := st.syncStatus.companiesProcessed + 1 } }
  else
    { st with companySkips := st.companySkips ++ [hubspotCompany.id] }

/-- One iteration of the contact loop of `EtlService.syncContacts`:
transform against the current store; if the transformed email is truthy,
upsert and bump the counter; otherwise record the skip warning. -/
def syncContactsStep (st : EtlState) (hubspotContact : HubSpotContact) : EtlState :=
  let contactData := transformHubspotContact st.db hubspotContact
  if contactData.email != "" then
    let (_, db2) := ContactService.upsertContactByHubspotId st.db contactData
    { st with
      db := db2
      syncStatus :=
        { st.syncStatus with
          contactsProcessed := st.syncStatus.contactsProcessed + 1 } }
  else
    { st with contactSkips := st.contactSkips ++ [hubspotContact.id] }

/-- The candidates the contact loop actually passes to the upsert, in order:
the trace of `EtlService.syncContacts` restricted to its truthy-email branch. -/
def syncContactsTrace (st : EtlState) : List HubSpotContact → List CreateContact
  | [] => []
  | raw :: rest =>
    let contactData := transformHubspotContact st.db raw
    if contactData.email != "" then
      contactData :: syncContactsTrace (syncContactsStep st raw) rest
    else
      syncContactsTrace (syncContactsStep st raw) rest

/-- The status reset at the start of `EtlService.syncCrmData`: replace the
whole status object — running flag set, start time recorded, both counters
zeroed, error list replaced wholesale. -/
def startRun (st : EtlState) : EtlState :=
  { st with
    syncStatus :=
      { isRunning := true
        startedAt := some st.db.clock
        completedAt := none
        contactsProcessed := 0
        companiesProcessed := 0
        errors := [] }
    db := { st.db with clock := st.db.clock + 1 } }

/-- The catch block of `EtlService.syncCrmData` rethrowing an `AppError`:
clear the running flag, record the completion time, append the formatted
error, and propagate the error itself. -/
def failRun (st : EtlState) (e : AppError) :
    Except AppError EtlSyncResponse × EtlState :=
  let st2 : EtlState :=
    { st with
      syncStatus :=
        { st.syncStatus with
          isRunning := false
          completedAt := some st.db.clock
          errors := st.syncStatus.errors ++ [e.message] }
      db := { st.db with clock := st.db.clock + 1 } }
  (.error e, st2)

/-- The catch block of `EtlService.syncCrmData` on a non-`AppError` failure
(an aborted page fetch): same state updates, then a wrapped 500. -/
def failRunUnexpected (st : EtlState) (msg : String) :
    Except AppError EtlSyncResponse × EtlState :=
  let st2 : EtlState :=
    { st with
      syncStatus :=
        { st.syncStatus with
          isRunning := false
          completedAt := some st.db.clock
          errors := st.syncStatus.errors ++ [msg] }
      db := { st.db with clock := st.db.clock + 1 } }
  (.error { message := "ETL sync failed due to an unexpected error", statusCode := 500 }, st2)

/-- `EtlService.syncCrmData`: reject with a 409 while a run is in progress
(state untouched); otherwise reset the status wholesale and mark the run
started; fail the run with a 502 when the pre-flight health check reports
unreachable; otherwise run the company phase to completion over all fetched
companies, then the contact phase over all fetched contacts (an aborted
fetch fails the run); finally record completion, clear the running flag, and
return the summary. -/
def syncCrmData (env : HubSpotEnv) (st : EtlState) :
    Except AppError EtlSyncResponse × EtlState :=
  if st.syncStatus.isRunning then
    (.error { message := "ETL sync is already running", statusCode := 409 }, st)
  else
    let st1 := startRun st
    if !(HubSpotApiService.healthCheck env.healthRequest) then
      failRun st1 { message := "HubSpot API is not accessible", statusCode := 502 }
    else
      match HubSpotApiService.getAllCompanies env with
      | .error e => failRunUnexpected st1 e
      | .ok hubspotCompanies =>
        let st2 := hubspotCompanies.foldl syncCompaniesStep st1
        match HubSpotApiService.getAllContacts env with
        | .error e => failRunUnexpected st2 e
        | .ok hubspotContacts =>
          let st3 := hubspotContacts.foldl syncContactsStep st2
          let completedAt := st3.db.clock
          let st4 : EtlState :=
            { st3 with
              syncStatus :=
                { st3.syncStatus with
                  completedAt := some completedAt
                  isRunning := false }
              db := { st3.db with clock := st3.db.clock + 1 } }
          (.ok
            { message := "Sync completed successfully"
              contactsSynced := st4.syncStatus.contactsProcessed
              companiesSynced := st4.syncStatus.companiesProcessed
              syncedAt := completedAt }, st4)

end EtlService

/-- The heap of JS array objects, for the aliasing analysis of
`EtlService.getSyncStatus`: an address-indexed store of string arrays. -/
def ErrHeap : Type := Nat → List String

/-- The `EtlSyncStatus` object as it lives in the JS heap: scalar fields
inline, the `errors` array held by reference. -/
structure StatusObj where
  isRunning : Bool
  startedAt : Option Nat
  completedAt : Option Nat
  contactsProcessed : Nat
  companiesProcessed : Nat
  errorsRef : Nat
deriving Repr, DecidableEq

/-- `EtlService.getSyncStatus`: `return { ...this.syncStatus }` — the JS
spread copies each top-level field into a fresh object; the `errors` field
is an array reference, so the copy holds the same reference. -/
def getSyncStatus (s : StatusObj) : StatusObj :=
  { isRunning := s.isRunning
    startedAt := s.startedAt
    completedAt := s.completedAt
    contactsProcessed := s.contactsProcessed
    companiesProcessed := s.companiesProcessed
    errorsRef := s.errorsRef }

/-- A caller-side `status.errors.push(msg)`: mutate the array at the pushed
reference in place. -/
def pushError (h : ErrHeap) (ref : Nat) (msg : String) : ErrHeap :=
  fun r => if r = ref then h r ++ [msg] else h r

/-- The error list a status object observes through its reference. -/
def errorsOf (h : ErrHeap) (s : StatusObj) : List String :=
  h s.errorsRef

/-! Concrete fixtures used by witnesses and counterexamples. -/

/-- An empty database. -/
def emptyDb : Database :=
  { companies := [], contacts := [], nextId := 0, clock := 0 }

/-- An idle orchestrator state over the empty database. -/
def idleState : EtlState :=
  { syncStatus :=
      { isRunning := false, startedAt := none, completedAt := none
        contactsProcessed := 0, companiesProcessed := 0, errors := [] }
    db := emptyDb
    companySkips := []
    contactSkips := [] }

/-- A state whose status says a run is in progress, with nonzero counters. -/
def runningState : EtlState :=
  { syncStatus :=
      { isRunning := true, startedAt := some 5, completedAt := none
        contactsProcessed := 3, companiesProcessed := 2, errors := ["earlier error"] }
    db := emptyDb
    companySkips := []
    contactSkips := [] }

/-- A healthy environment with one empty page per resource. -/
def healthyEnv : HubSpotEnv :=
  { healthRequest := .ok ()
    companyPages := [{ results := [], nextAfter := none }]
    contactPages := [{ results := [], nextAfter := none }] }

/-- An environment whose health-check request fails in transport. -/
def downEnv : HubSpotEnv :=
  { healthRequest := .error ("connection refused")
    companyPages := []
    contactPages := [] }

/-- A stored contact with a first name, for the update-path fixtures. -/
def contactX : Contact :=
  { id := 0, hubspot_id := "hs-7", firstname := some "X", lastname := some "Y"
    email := "x@old.example", company_id := none, created_at := 11 }

/-- A database holding only `contactX`. -/
def dbWithContactX : Database :=
  { companies := [], contacts := [contactX], nextId := 1, clock := 12 }

/-- An upsert candidate for `contactX`'s external id carrying no value for
the optional fields. -/
def candidateNoNames : CreateContact :=
  { hubspot_id := "hs-7", firstname := none, lastname := none
    email := "x@new.example", company_id := none }

/-- Three fetched contacts of which exactly the middle one is malformed:
its email trims to the empty string. -/
def mixedContacts : List HubSpotContact :=
  [{ id := "c1", firstname := some " Ana ", lastname := none
     email := some "ana@example.com", associatedcompanyid := none },
   { id := "c2", firstname := none, lastname := none
     email := some "   ", associatedcompanyid := none },
   { id := "c3", firstname := none, lastname := none
     email := some "bo@example.org", associatedcompanyid := none }]

/-- A healthy environment serving `mixedContacts` and no companies. -/
def envOneMalformed : HubSpotEnv :=
  { healthRequest := .ok ()
    companyPages := [{ results := [], nextAfter := none }]
    contactPages := [{ results := mixedContacts, nextAfter := none }] }

/-- A raw company record for the association fixture. -/
def rawCompanyAcme : HubSpotCompany :=
  { id := "co-1", name := some "Acme", domain := some "acme.io" }

/-- A raw contact record referencing `rawCompanyAcme` by external id. -/
def rawContactPat : HubSpotContact :=
  { id := "p-1", firstname := some "Pat", lastname := none
    email := some "pat@acme.io", associatedcompanyid := some "co-1" }

/-- A healthy environment serving one company and one contact that
references it. -/
def envAssoc : HubSpotEnv :=
  { healthRequest := .ok ()
    companyPages := [{ results := [rawCompanyAcme], nextAfter := none }]
    contactPages := [{ results := [rawContactPat], nextAfter := none }] }

/-- First upsert candidate for external id `hubspot-123`, named `A`. -/
def companyCandA : CreateCompany :=
  { hubspot_id := "hubspot-123", name := "A", domain := "a.example" }

/-- Second upsert candidate for the same external id, named `B`. -/
def companyCandB : CreateCompany :=
  { hubspot_id := "hubspot-123", name := "B", domain := "b.example" }

/-- A status object whose errors array lives at heap address 0. -/
def statusObj0 : StatusObj :=
  { isRunning := false, startedAt := none, completedAt := none
    contactsProcessed := 0, companiesProcessed := 0, errorsRef := 0 }

/-- A heap whose every array is empty. -/
def emptyHeap : ErrHeap :=
  fun _ => []

/-!
Theorems. Supporting lemmas come first; each claim is settled by the single
theorem carrying its id in the doc comment.
-/

theorem companyApplyUpdate_id (u : UpdateCompany) (c : Company) :
    (CompanyRepository.applyUpdate u c).id = c.id := rfl

theorem companyApplyUpdate_created_at (u : UpdateCompany) (c : Company) :
    (CompanyRepository.applyUpdate u c).created_at = c.created_at := rfl

theorem contactApplyUpdate_id (u : UpdateContact) (c : Contact) :
    (ContactRepository.applyUpdate u c).id = c.id := rfl

theorem contactApplyUpdate_created_at (u : UpdateContact) (c : Contact) :
    (ContactRepository.applyUpdate u c).created_at = c.created_at := rfl

/-- Re-fetching by id after the SQL `UPDATE` finds the image of whatever the
fetch found before, since the update preserves ids. -/
theorem find?_map_update_contact (l : List Contact) (i : Nat) (u : UpdateContact) :
    (l.map (fun c => if c.id == i then ContactRepository.applyUpdate u c else c)).find?
        (fun c => c.id == i)
      = (l.find? (fun c => c.id == i)).map (ContactRepository.applyUpdate u) := by
  induction l with
  | nil => rfl
  | cons a t ih =>
    by_cases h : a.id = i
    · have h1 : (if a.id == i then ContactRepository.applyUpdate u a else a)
          = ContactRepository.applyUpdate u a := by simp [h]
      rw [List.map_cons, h1,
        List.find?_cons_of_pos _ (by simp [contactApplyUpdate_id, h]),
        List.find?_cons_of_pos _ (by simp [h])]
      rfl
    · have h1 : (if a.id == i then ContactRepository.applyUpdate u a else a) = a := by
        simp [h]
      rw [List.map_cons, h1,
        List.find?_cons_of_neg _ (by simp [h]),
        List.find?_cons_of_neg _ (by simp [h]), ih]

/-- Company version of `find?_map_update_contact`. -/
theorem find?_map_update_company (l : List Company) (i : Nat) (u : UpdateCompany) :
    (l.map (fun c => if c.id == i then CompanyRepository.applyUpdate u c else c)).find?
        (fun c => c.id == i)
      = (l.find? (fun c => c.id == i)).map (CompanyRepository.applyUpdate u) := by
  induction l with
  | nil => rfl
  | cons a t ih =>
    by_cases h : a.id = i
    · have h1 : (if a.id == i then CompanyRepository.applyUpdate u a else a)
          = CompanyRepository.applyUpdate u a := by simp [h]
      rw [List.map_cons, h1,
        List.find?_cons_of_pos _ (by simp [companyApplyUpdate_id, h]),
        List.find?_cons_of_pos _ (by simp [h])]
      rfl
    · have h1 : (if a.id == i then CompanyRepository.applyUpdate u a else a) = a := by
        simp [h]
      rw [List.map_cons, h1,
        List.find?_cons_of_neg _ (by simp [h]),
        List.find?_cons_of_neg _ (by simp [h]), ih]

/-- With pairwise distinct ids, fetching a member's id finds that member. -/
theorem find?_id_of_mem_nodup_contact (l : List Contact)
    (hnd : (l.map (fun c => c.id)).Nodup) (c : Contact) (hc : c ∈ l) :
    l.find? (fun x => x.id == c.id) = some c := by
  induction l with
  | nil => cases hc
  | cons a t ih =>
    rcases List.mem_cons.mp hc with h | h
    · subst h
      simp [List.find?_cons]
    · have hne : a.id ≠ c.id := by
        intro he
        have : c.id ∈ t.map (fun x => x.id) := List.mem_map_of_mem _ h
        rw [← he] at this
        exact (List.nodup_cons.mp (by simpa using hnd)).1 this
      simp [List.find?_cons, hne]
      exact ih (List.nodup_cons.mp (by simpa using hnd)).2 h

/-- Company version of `find?_id_of_mem_nodup_contact`. -/
theorem find?_id_of_mem_nodup_company (l : List Company)
    (hnd : (l.map (fun c => c.id)).Nodup) (c : Company) (hc : c ∈ l) :
    l.find? (fun x => x.id == c.id) = some c := by
  induction l with
  | nil => cases hc
  | cons a t ih =>
    rcases List.mem_cons.mp hc with h | h
    · subst h
      simp [List.find?_cons]
    · have hne : a.id ≠ c.id := by
        intro he
        have : c.id ∈ t.map (fun x => x.id) := List.mem_map_of_mem _ h
        rw [← he] at this
        exact (List.nodup_cons.mp (by simpa using hnd)).1 this
      simp [List.find?_cons, hne]
      exact ih (List.nodup_cons.mp (by simpa using hnd)).2 h

/-- C3: while a run is already in progress, `syncCrmData` fails with a 409
conflict error and the whole state — counters, error list, timestamps,
running flag, stores — is returned unchanged. -/
theorem c3_conflict_rejected_without_state_change (env : HubSpotEnv) (st : EtlState)
    (hrun : st.syncStatus.isRunning = true) :
    EtlService.syncCrmData env st
      = (.error { message := "ETL sync is already running", statusCode := 409 }, st) := by
  simp [EtlService.syncCrmData, hrun]

/-- Witness for C3 at a concrete running state. -/
theorem c3_witness :
    EtlService.syncCrmData healthyEnv runningState
      = (.error { message := "ETL sync is already running", statusCode := 409 },
         runningState) :=
  c3_conflict_rejected_without_state_change healthyEnv runningState rfl

/-- Both placeholder defaults of the company transform are nonempty. -/
theorem transformCompany_fields_nonempty (raw : HubSpotCompany) :
    (EtlService.transformHubspotCompany raw).name ≠ ""
    ∧ (EtlService.transformHubspotCompany raw).domain ≠ "" := by
  unfold EtlService.transformHubspotCompany
  constructor
  · by_cases h : cleanString raw.name == "" <;> simp [h]
    · intro hcon
      simp [hcon] at h
  · by_cases h : cleanString raw.domain == "" <;> simp [h]
    · intro hcon
      simp [hcon] at h

/-- The company loop always takes its upsert branch. -/
theorem syncCompaniesStep_no_skip (st : EtlState) (raw : HubSpotCompany) :
    (EtlService.syncCompaniesStep st raw).companySkips = st.companySkips
    ∧ (EtlService.syncCompaniesStep st raw).syncStatus.companiesProcessed
        = st.syncStatus.companiesProcessed + 1 := by
  have h := transformCompany_fields_nonempty raw
  unfold EtlService.syncCompaniesStep
  rw [if_pos]
  · exact ⟨rfl, rfl⟩
  · simp [bne_iff_ne]
    exact ⟨h.1, h.2⟩

/-- C6: every raw company record's missing or blank name and domain are
replaced by nonempty placeholder defaults, so the skip branch of the company
phase is unreachable: over any fetched list the skip accounting is unchanged
and every record reaches the upsert, counted exactly once. -/
theorem c6_company_defaults_never_skip :
    (∀ raw : HubSpotCompany,
      (EtlService.transformHubspotCompany raw).name ≠ ""
      ∧ (EtlService.transformHubspotCompany raw).domain ≠ "")
    ∧ ∀ (st : EtlState) (raws : List HubSpotCompany),
      (raws.foldl EtlService.syncCompaniesStep st).companySkips = st.companySkips
      ∧ (raws.foldl EtlService.syncCompaniesStep st).syncStatus.companiesProcessed
          = st.syncStatus.companiesProcessed + raws.length := by
  refine ⟨transformCompany_fields_nonempty, ?_⟩
  intro st raws
  induction raws generalizing st with
  | nil => simp
  | cons raw rest ih =>
    have hstep := syncCompaniesStep_no_skip st raw
    have hrest := ih (EtlService.syncCompaniesStep st raw)
    refine ⟨hrest.1.trans hstep.1, ?_⟩
    rw [List.foldl_cons, hrest.2, hstep.2, List.length_cons]
    omega

/-- C7: a failed pre-flight health check fails the run before any record is
processed: a 502 error is raised, the final status has the running flag
cleared, both counters zero, exactly the one aggregated error, and a
completion time; and `healthCheck` itself is a total Boolean operation that
reports `true` exactly when its request succeeds. -/
theorem c7_health_failure_fails_run_before_processing
    (env : HubSpotEnv) (st : EtlState) (msg : String)
    (hrun : st.syncStatus.isRunning = false)
    (hfail : env.healthRequest = .error msg) :
    (EtlService.syncCrmData env st).1
        = .error { message := "HubSpot API is not accessible", statusCode := 502 }
    ∧ (EtlService.syncCrmData env st).2.syncStatus.isRunning = false
    ∧ (EtlService.syncCrmData env st).2.syncStatus.contactsProcessed = 0
    ∧ (EtlService.syncCrmData env st).2.syncStatus.companiesProcessed = 0
    ∧ (EtlService.syncCrmData env st).2.syncStatus.errors
        = ["HubSpot API is not accessible"]
    ∧ (EtlService.syncCrmData env st).2.syncStatus.completedAt.isSome = true
    ∧ ∀ r : Except String Unit,
        (HubSpotApiService.healthCheck r = true ↔ r = .ok ()) := by
  refine ⟨?_, ?_, ?_, ?_, ?_, ?_, ?_⟩
  case _ =>
    simp [EtlService.syncCrmData, hrun, hfail, HubSpotApiService.healthCheck,
      EtlService.failRun, EtlService.startRun]
  case _ =>
    simp [EtlService.syncCrmData, hrun, hfail, HubSpotApiService.healthCheck,
      EtlService.failRun, EtlService.startRun]
  case _ =>
    simp [EtlService.syncCrmData, hrun, hfail, HubSpotApiService.healthCheck,
      EtlService.failRun, EtlService.startRun]
  case _ =>
    simp [EtlService.syncCrmData, hrun, hfail, HubSpotApiService.healthCheck,
      EtlService.failRun, EtlService.startRun]
  case _ =>
    simp [EtlService.syncCrmData, hrun, hfail, HubSpotApiService.healthCheck,
      EtlService.failRun, EtlService.startRun]
  case _ =>
    simp [EtlService.syncCrmData, hrun, hfail, HubSpotApiService.healthCheck,
      EtlService.failRun, EtlService.startRun]
  case _ =>
    intro r
    cases r <;> simp [HubSpotApiService.healthCheck]

/-- Witness for C7 at a concrete unreachable environment. -/
theorem c7_witness :
    (EtlService.syncCrmData downEnv idleState).1
        = .error { message := "HubSpot API is not accessible", statusCode := 502 }
    ∧ (EtlService.syncCrmData downEnv idleState).2.syncStatus.errors
        = ["HubSpot API is not accessible"] := by
  have h := c7_health_failure_fails_run_before_processing downEnv idleState
    "connection refused" rfl rfl
  exact ⟨h.1, h.2.2.2.2.1⟩

/-- C8: the pagination loop issues one request per served page, carrying the
prior page's cursor, and stops exactly at the first response with no next
cursor: on pages `P1 (cursor c1), P2 (no cursor)` it issues exactly the two
requests `none, some c1`, returns the two pages' records concatenated in
fetch order, and never touches anything served after `P2`. -/
theorem c8_pagination_terminates_on_missing_cursor
    (r1 r2 : List HubSpotContact) (c1 : String)
    (extra : List (HsPage HubSpotContact)) :
    (HubSpotApiService.fetchAllPages
        ({ results := r1, nextAfter := some c1 }
          :: { results := r2, nextAfter := none } :: extra) none
      = .ok (r1 ++ r2, [none, some c1]))
    ∧ ∀ (pages : List (HsPage HubSpotContact)) (page : HsPage HubSpotContact)
        (after : Option String),
        page.nextAfter = none →
        HubSpotApiService.fetchAllPages (page :: pages) after
          = .ok (page.results, [after]) := by
  constructor
  · rfl
  · intro pages page after h
    unfold HubSpotApiService.fetchAllPages
    rw [h]

/-- Witness for C8 at a concrete single cursor-free page. -/
theorem c8_witness :
    HubSpotApiService.fetchAllPages
        [({ results := [], nextAfter := none } : HsPage HubSpotContact)] (some "cur")
      = .ok ([], [some "cur"]) :=
  (c8_pagination_terminates_on_missing_cursor [] [] "c" []).2
    [] { results := [], nextAfter := none } (some "cur") rfl

/-- C9 counterexample: `getSyncStatus` spreads the status object, so the
returned copy holds the same errors-array reference; a caller pushing one
message through the returned copy changes the error list the internal status
observes, contradicting the claim that caller mutation of the returned
errors list never affects internal state. -/
theorem c9_counterexample_errors_alias :
    errorsOf (pushError emptyHeap (getSyncStatus statusObj0).errorsRef "boom") statusObj0
      ≠ errorsOf emptyHeap statusObj0 := by
  simp [errorsOf, pushError, getSyncStatus, statusObj0, emptyHeap]

/-- C9 amended: `getSyncStatus` returns a shallow copy — every top-level
scalar field is copied into a fresh object, but the errors array is shared
by reference, so a caller push through the returned copy appends to the
error list the internal status observes. -/
theorem c9_shallow_copy_scalars_copied_errors_shared
    (s : StatusObj) (h : ErrHeap) (msg : String) :
    (getSyncStatus s).isRunning = s.isRunning
    ∧ (getSyncStatus s).startedAt = s.startedAt
    ∧ (getSyncStatus s).completedAt = s.completedAt
    ∧ (getSyncStatus s).contactsProcessed = s.contactsProcessed
    ∧ (getSyncStatus s).companiesProcessed = s.companiesProcessed
    ∧ (getSyncStatus s).errorsRef = s.errorsRef
    ∧ errorsOf (pushError h (getSyncStatus s).errorsRef msg) s = errorsOf h s ++ [msg] := by
  refine ⟨rfl, rfl, rfl, rfl, rfl, rfl, ?_⟩
  simp [errorsOf, pushError, getSyncStatus]

/-- A contact upsert never touches the company table. -/
theorem upsertContact_companies_eq (db : Database) (cd : CreateContact) :
    (ContactRepository.upsertByHubspotId db cd).2.companies = db.companies := by
  cases hf : ContactRepository.findByHubspotId db cd.hubspot_id with
  | none =>
    simp [ContactRepository.upsertByHubspotId, hf, ContactRepository.create]
  | some c0 =>
    cases hi : ContactRepository.findById db c0.id with
    | none =>
      simp [ContactRepository.upsertByHubspotId, hf, ContactRepository.update, hi]
    | some c1 =>
      simp [ContactRepository.upsertByHubspotId, hf, ContactRepository.update, hi]

/-- Every upsert persists a row carrying the candidate's external id and
email, on both the create and the update path. -/
theorem upsertContact_stores_email (db : Database) (cd : CreateContact) :
    ∃ c ∈ (ContactRepository.upsertByHubspotId db cd).2.contacts,
      c.hubspot_id = cd.hubspot_id ∧ c.email = cd.email := by
  cases hf : ContactRepository.findByHubspotId db cd.hubspot_id with
  | none =>
    simp only [ContactRepository.upsertByHubspotId, hf, ContactRepository.create]
    refine ⟨_, List.mem_append_right _ (List.mem_singleton_self _), rfl, rfl⟩
  | some c0 =>
    have hc0 : c0 ∈ db.contacts := List.mem_of_find?_eq_some hf
    cases hi : ContactRepository.findById db c0.id with
    | none =>
      exfalso
      have hall : ∀ x ∈ db.contacts, ¬ (x.id == c0.id) = true :=
        List.find?_eq_none.mp hi
      exact hall c0 hc0 (by simp)
    | some c1 =>
      simp only [ContactRepository.upsertByHubspotId, hf, ContactRepository.update, hi,
        Option.isNone_some, Bool.false_and, Bool.and_false, if_neg, ite_false,
        Bool.false_eq_true, not_false_eq_true]
      refine ⟨ContactRepository.applyUpdate
          { hubspot_id := some cd.hubspot_id, firstname := cd.firstname
            lastname := cd.lastname, email := some cd.email
            company_id := cd.company_id } c0, ?_, rfl, rfl⟩
      exact List.mem_map.mpr ⟨c0, hc0, by simp⟩

/-- The update path of the contact upsert: with pairwise distinct local ids,
the returned (and stored) record is exactly the found row with the
candidate's defined fields applied. -/
theorem upsertContact_found (db : Database) (cd : CreateContact) (c0 : Contact)
    (hnd : (db.contacts.map (fun c => c.id)).Nodup)
    (hf : ContactRepository.findByHubspotId db cd.hubspot_id = some c0) :
    (ContactRepository.upsertByHubspotId db cd).1
      = ContactRepository.applyUpdate
          { hubspot_id := some cd.hubspot_id, firstname := cd.firstname
            lastname := cd.lastname, email := some cd.email
            company_id := cd.company_id } c0 := by
  have hc0 : c0 ∈ db.contacts := List.mem_of_find?_eq_some hf
  have hid : ContactRepository.findById db c0.id = some c0 :=
    find?_id_of_mem_nodup_contact db.contacts hnd c0 hc0
  have hid2 : db.contacts.find? (fun x => x.id == c0.id) = some c0 := hid
  simp only [ContactRepository.upsertByHubspotId, hf, ContactRepository.update, hid,
    Option.isNone_some, Bool.false_and, Bool.and_false, Bool.false_eq_true, if_false,
    ContactRepository.findById, find?_map_update_contact, hid2,
    Option.map_some, Option.getD_some]
  rfl

/-- C2 counterexample: the stored contact has `firstname = some "X"`; the
upsert candidate for the same external id carries no value for `firstname`,
yet after the upsert the persisted and returned record still has
`firstname = some "X"` — the field is not overwritten to absent as the
claim requires, because the repository update skips undefined fields. -/
theorem c2_counterexample_undefined_field_kept :
    (ContactRepository.upsertByHubspotId dbWithContactX candidateNoNames).1.firstname
        = some "X"
    ∧ (ContactRepository.upsertByHubspotId dbWithContactX candidateNoNames).1.firstname
        ≠ none := by
  decide

/-- C2 amended: when the candidate's external id is already present (and
local ids are pairwise distinct), the fields the candidate defines —
external id, email, and any optional field it carries a value for — are
overwritten, while optional fields the candidate carries no value for
retain their previously stored values; the existing local id and creation
timestamp are kept. When the external id is not present, a new local id and
the current timestamp are assigned. -/
theorem c2_upsert_overwrites_defined_keeps_missing
    (db : Database) (cd : CreateContact)
    (hnd : (db.contacts.map (fun c => c.id)).Nodup) :
    (∀ c0, ContactRepository.findByHubspotId db cd.hubspot_id = some c0 →
      (ContactRepository.upsertByHubspotId db cd).1.id = c0.id
      ∧ (ContactRepository.upsertByHubspotId db cd).1.created_at = c0.created_at
      ∧ (ContactRepository.upsertByHubspotId db cd).1.hubspot_id = cd.hubspot_id
      ∧ (ContactRepository.upsertByHubspotId db cd).1.email = cd.email
      ∧ (ContactRepository.upsertByHubspotId db cd).1.firstname
          = (match cd.firstname with | some s => some s | none => c0.firstname)
      ∧ (ContactRepository.upsertByHubspotId db cd).1.lastname
          = (match cd.lastname with | some s => some s | none => c0.lastname)
      ∧ (ContactRepository.upsertByHubspotId db cd).1.company_id
          = (match cd.company_id with | some i => some i | none => c0.company_id))
    ∧ (ContactRepository.findByHubspotId db cd.hubspot_id = none →
      (ContactRepository.upsertByHubspotId db cd).1.id = db.nextId
      ∧ (ContactRepository.upsertByHubspotId db cd).1.created_at = db.clock) := by
  constructor
  · intro c0 hf
    rw [upsertContact_found db cd c0 hnd hf]
    exact ⟨rfl, rfl, rfl, rfl, rfl, rfl, rfl⟩
  · intro hf
    unfold ContactRepository.upsertByHubspotId
    rw [hf]
    exact ⟨rfl, rfl⟩

/-- Witness for C2's amended theorem on both paths: the update path keeps
`contactX`'s id, creation timestamp and undefined optional fields while
taking the candidate's email; the create path over the empty store assigns
the fresh id and current timestamp. -/
theorem c2_witness :
    ((ContactRepository.upsertByHubspotId dbWithContactX candidateNoNames).1.id = 0
    ∧ (ContactRepository.upsertByHubspotId dbWithContactX candidateNoNames).1.created_at = 11
    ∧ (ContactRepository.upsertByHubspotId dbWithContactX candidateNoNames).1.email
        = "x@new.example"
    ∧ (ContactRepository.upsertByHubspotId dbWithContactX candidateNoNames).1.firstname
        = some "X")
    ∧ ((ContactRepository.upsertByHubspotId emptyDb candidateNoNames).1.id = 0
    ∧ (ContactRepository.upsertByHubspotId emptyDb candidateNoNames).1.created_at = 0) := by
  have h1 := (c2_upsert_overwrites_defined_keeps_missing dbWithContactX candidateNoNames
    (by decide)).1 contactX (by decide)
  have h2 := (c2_upsert_overwrites_defined_keeps_missing emptyDb candidateNoNames
    (by decide)).2 (by decide)
  exact ⟨⟨h1.1, h1.2.1, h1.2.2.2.1, h1.2.2.2.2.1⟩, h2⟩

/-- C10: the sync path performs no email-format validation — any fetched
contact whose email trims to a nonempty string, valid or not, is upserted
and persisted with exactly that string as its email — while the CRUD create
path rejects an invalid email outright with a 400 before touching the
store. -/
theorem c10_sync_bypasses_email_validation
    (st : EtlState) (raw : HubSpotContact) (db : Database) (cd : CreateContact)
    (hne : cleanString raw.email ≠ "")
    (hinvalid : isValidEmail cd.email = false) :
    (∃ c ∈ (EtlService.syncContactsStep st raw).db.contacts,
        c.hubspot_id = raw.id ∧ c.email = cleanString raw.email)
    ∧ ContactService.createContact db cd
        = .error { message := "Invalid email format", statusCode := 400 } := by
  constructor
  · unfold EtlService.syncContactsStep
    rw [if_pos (by simpa [bne_iff_ne] using hne)]
    exact upsertContact_stores_email st.db (EtlService.transformHubspotContact st.db raw)
  · unfold ContactService.createContact
    rw [if_pos (by simp [hinvalid])]

/-- Witness for C10 at the concrete non-address email `not-an-email`. -/
theorem c10_witness :
    (∃ c ∈ (EtlService.syncContactsStep idleState
        { id := "hs-9", firstname := none, lastname := none
          email := some "not-an-email", associatedcompanyid := none }).db.contacts,
      c.hubspot_id = "hs-9" ∧ c.email = cleanString (some "not-an-email"))
    ∧ ContactService.createContact emptyDb
        { hubspot_id := "hs-9", firstname := none, lastname := none
          email := "not-an-email", company_id := none }
      = .error { message := "Invalid email format", statusCode := 400 }
    ∧ cleanString (some "not-an-email") = "not-an-email"
    ∧ isValidEmail "not-an-email" = false := by
  have h := c10_sync_bypasses_email_validation idleState
    { id := "hs-9", firstname := none, lastname := none
      email := some "not-an-email", associatedcompanyid := none }
    emptyDb
    { hubspot_id := "hs-9", firstname := none, lastname := none
      email := "not-an-email", company_id := none }
    (by decide) (by decide)
  exact ⟨h.1, h.2, by decide, by decide⟩



theorem transformContact_email (db : Database) (raw : HubSpotContact) :
    (EtlService.transformHubspotContact db raw).email = cleanString raw.email := rfl

/-- The contact loop's upsert branch as a whole-state equation. -/
theorem syncContactsStep_processed_eq (st : EtlState) (raw : HubSpotContact)
    (h : cleanString raw.email ≠ "") :
    EtlService.syncContactsStep st raw
      = { st with
          db := (ContactService.upsertContactByHubspotId st.db
                  (EtlService.transformHubspotContact st.db raw)).2
          syncStatus :=
            { st.syncStatus with
              contactsProcessed := st.syncStatus.contactsProcessed + 1 } } := by
  simp only [EtlService.syncContactsStep]
  rw [if_pos (by simpa [bne_iff_ne, transformContact_email] using h)]

/-- The contact loop's skip branch as a whole-state equation. -/
theorem syncContactsStep_skip_eq (st : EtlState) (raw : HubSpotContact)
    (h : cleanString raw.email = "") :
    EtlService.syncContactsStep st raw
      = { st with contactSkips := st.contactSkips ++ [raw.id] } := by
  simp only [EtlService.syncContactsStep]
  rw [if_neg (by simp [transformContact_email, h])]

/-- The fields the company loop never writes. -/
theorem syncCompaniesStep_frame (st : EtlState) (raw : HubSpotCompany) :
    (EtlService.syncCompaniesStep st raw).syncStatus.contactsProcessed
        = st.syncStatus.contactsProcessed
    ∧ (EtlService.syncCompaniesStep st raw).syncStatus.errors = st.syncStatus.errors
    ∧ (EtlService.syncCompaniesStep st raw).syncStatus.isRunning
        = st.syncStatus.isRunning
    ∧ (EtlService.syncCompaniesStep st raw).syncStatus.startedAt
        = st.syncStatus.startedAt
    ∧ (EtlService.syncCompaniesStep st raw).syncStatus.completedAt
        = st.syncStatus.completedAt
    ∧ (EtlService.syncCompaniesStep st raw).contactSkips = st.contactSkips := by
  simp only [EtlService.syncCompaniesStep]
  split
  · exact ⟨rfl, rfl, rfl, rfl, rfl, rfl⟩
  · exact ⟨rfl, rfl, rfl, rfl, rfl, rfl⟩

/-- The fields the whole company phase never writes. -/
theorem foldl_companiesStep_frame (raws : List HubSpotCompany) (st : EtlState) :
    (raws.foldl EtlService.syncCompaniesStep st).syncStatus.contactsProcessed
        = st.syncStatus.contactsProcessed
    ∧ (raws.foldl EtlService.syncCompaniesStep st).syncStatus.errors
        = st.syncStatus.errors
    ∧ (raws.foldl EtlService.syncCompaniesStep st).syncStatus.isRunning
        = st.syncStatus.isRunning
    ∧ (raws.foldl EtlService.syncCompaniesStep st).syncStatus.startedAt
        = st.syncStatus.startedAt
    ∧ (raws.foldl EtlService.syncCompaniesStep st).syncStatus.completedAt
        = st.syncStatus.completedAt
    ∧ (raws.foldl EtlService.syncCompaniesStep st).contactSkips = st.contactSkips := by
  induction raws generalizing st with
  | nil => exact ⟨rfl, rfl, rfl, rfl, rfl, rfl⟩
  | cons raw rest ih =>
    have h1 := syncCompaniesStep_frame st raw
    have h2 := ih (EtlService.syncCompaniesStep st raw)
    exact ⟨h2.1.trans h1.1, h2.2.1.trans h1.2.1, h2.2.2.1.trans h1.2.2.1,
      h2.2.2.2.1.trans h1.2.2.2.1, h2.2.2.2.2.1.trans h1.2.2.2.2.1,
      h2.2.2.2.2.2.trans h1.2.2.2.2.2⟩

/-- Counting over the contact phase: the processed counter counts exactly
the records whose trimmed email is nonempty, the skip list grows by exactly
the records whose trimmed email is empty, and the error list, running flag,
completion time and company counter are untouched. -/
theorem foldl_contactsStep_stats (raws : List HubSpotContact) (st : EtlState) :
    (raws.foldl EtlService.syncContactsStep st).syncStatus.contactsProcessed
        = st.syncStatus.contactsProcessed
          + raws.countP (fun r => cleanString r.email != "")
    ∧ (raws.foldl EtlService.syncContactsStep st).contactSkips.length
        = st.contactSkips.length
          + raws.countP (fun r => cleanString r.email == "")
    ∧ (raws.foldl EtlService.syncContactsStep st).syncStatus.errors
        = st.syncStatus.errors
    ∧ (raws.foldl EtlService.syncContactsStep st).syncStatus.isRunning
        = st.syncStatus.isRunning
    ∧ (raws.foldl EtlService.syncContactsStep st).syncStatus.completedAt
        = st.syncStatus.completedAt
    ∧ (raws.foldl EtlService.syncContactsStep st).syncStatus.companiesProcessed
        = st.syncStatus.companiesProcessed := by
  induction raws generalizing st with
  | nil => simp
  | cons raw rest ih =>
    rw [List.foldl_cons]
    by_cases h : cleanString raw.email = ""
    · rw [syncContactsStep_skip_eq st raw h]
      have ihs := ih { st with contactSkips := st.contactSkips ++ [raw.id] }
      have hcne : List.countP (fun r => cleanString r.email != "") (raw :: rest)
          = List.countP (fun r => cleanString r.email != "") rest := by
        rw [List.countP_cons_of_neg]
        simp [h]
      have hceq : List.countP (fun r => cleanString r.email == "") (raw :: rest)
          = List.countP (fun r => cleanString r.email == "") rest + 1 := by
        rw [List.countP_cons_of_pos]
        simp [h]
      refine ⟨?_, ?_, ihs.2.2.1, ihs.2.2.2.1, ihs.2.2.2.2.1, ihs.2.2.2.2.2⟩
      · rw [ihs.1, hcne]
      · rw [ihs.2.1, hceq]
        show (st.contactSkips ++ [raw.id]).length
            + List.countP (fun r => cleanString r.email == "") rest
          = st.contactSkips.length
            + (List.countP (fun r => cleanString r.email == "") rest + 1)
        simp only [List.length_append, List.length_singleton]
        omega
    · rw [syncContactsStep_processed_eq st raw h]
      have ihs := ih
        { st with
          db := (ContactService.upsertContactByHubspotId st.db
                  (EtlService.transformHubspotContact st.db raw)).2
          syncStatus :=
            { st.syncStatus with
              contactsProcessed := st.syncStatus.contactsProcessed + 1 } }
      have hcne : List.countP (fun r => cleanString r.email != "") (raw :: rest)
          = List.countP (fun r => cleanString r.email != "") rest + 1 := by
        rw [List.countP_cons_of_pos]
        simpa [bne_iff_ne] using h
      have hceq : List.countP (fun r => cleanString r.email == "") (raw :: rest)
          = List.countP (fun r => cleanString r.email == "") rest := by
        rw [List.countP_cons_of_neg]
        simp [h]
      refine ⟨?_, ?_, ihs.2.2.1, ihs.2.2.2.1, ihs.2.2.2.2.1, ihs.2.2.2.2.2⟩
      · rw [ihs.1, hcne]
        show st.syncStatus.contactsProcessed + 1
            + List.countP (fun r => cleanString r.email != "") rest
          = st.syncStatus.contactsProcessed
            + (List.countP (fun r => cleanString r.email != "") rest + 1)
        omega
      · rw [ihs.2.1, hceq]

/-- Splitting a contact list's length into processed and skipped parts. -/
theorem countP_email_split (raws : List HubSpotContact) :
    raws.countP (fun r => cleanString r.email != "")
      = raws.length - raws.countP (fun r => cleanString r.email == "") := by
  have h := List.length_eq_countP_add_countP
    (p := fun r : HubSpotContact => cleanString r.email == "") (l := raws)
  have h2 : raws.countP (fun a => ¬ (cleanString a.email == "") = true)
      = raws.countP (fun r => cleanString r.email != "") :=
    List.countP_congr (by intro x hx; simp [bne_iff_ne])
  omega

/-- The success path of `syncCrmData` as one equation over the two phase
folds. -/
theorem syncCrmData_ok_eq (env : HubSpotEnv) (st : EtlState)
    (rawCompanies : List HubSpotCompany) (rawContacts : List HubSpotContact)
    (hrun : st.syncStatus.isRunning = false)
    (hhealth : env.healthRequest = .ok ())
    (hcs : HubSpotApiService.getAllCompanies env = .ok rawCompanies)
    (hts : HubSpotApiService.getAllContacts env = .ok rawContacts) :
    EtlService.syncCrmData env st
      = ((.ok
          { message := "Sync completed successfully"
            contactsSynced :=
              (rawContacts.foldl EtlService.syncContactsStep
                (rawCompanies.foldl EtlService.syncCompaniesStep
                  (EtlService.startRun st))).syncStatus.contactsProcessed
            companiesSynced :=
              (rawContacts.foldl EtlService.syncContactsStep
                (rawCompanies.foldl EtlService.syncCompaniesStep
                  (EtlService.startRun st))).syncStatus.companiesProcessed
            syncedAt :=
              (rawContacts.foldl EtlService.syncContactsStep
                (rawCompanies.foldl EtlService.syncCompaniesStep
                  (EtlService.startRun st))).db.clock }),
        (let stT :=
          rawContacts.foldl EtlService.syncContactsStep
            (rawCompanies.foldl EtlService.syncCompaniesStep
              (EtlService.startRun st))
        { stT with
          syncStatus :=
            { stT.syncStatus with
              completedAt := some stT.db.clock
              isRunning := false }
          db := { stT.db with clock := stT.db.clock + 1 } })) := by
  simp [EtlService.syncCrmData, hrun, hhealth, HubSpotApiService.healthCheck, hcs, hts]

/-- C5: over a fetch of N contact records of which exactly one is malformed
(its email missing or trimming to empty), the run still completes — the
result is a success summary, the running flag ends cleared with a recorded
completion time — with the contacts-processed counter equal to N−1, exactly
one new entry in the skip accounting (the malformed record's warning), and
no entry in the run's error list; processing never halts at the malformed
record. -/
theorem c5_partial_failure_isolation
    (env : HubSpotEnv) (st : EtlState)
    (rawCompanies : List HubSpotCompany) (rawContacts : List HubSpotContact)
    (hrun : st.syncStatus.isRunning = false)
    (hhealth : env.healthRequest = .ok ())
    (hcs : HubSpotApiService.getAllCompanies env = .ok rawCompanies)
    (hts : HubSpotApiService.getAllContacts env = .ok rawContacts)
    (hone : rawContacts.countP (fun r => cleanString r.email == "") = 1) :
    (∃ resp : EtlSyncResponse, (EtlService.syncCrmData env st).1 = .ok resp)
    ∧ (EtlService.syncCrmData env st).2.syncStatus.isRunning = false
    ∧ (EtlService.syncCrmData env st).2.syncStatus.completedAt.isSome = true
    ∧ (EtlService.syncCrmData env st).2.syncStatus.contactsProcessed
        = rawContacts.length - 1
    ∧ (EtlService.syncCrmData env st).2.syncStatus.errors = []
    ∧ (EtlService.syncCrmData env st).2.contactSkips.length
        = st.contactSkips.length + 1 := by
  rw [syncCrmData_ok_eq env st rawCompanies rawContacts hrun hhealth hcs hts]
  have hcf := foldl_companiesStep_frame rawCompanies (EtlService.startRun st)
  have hts2 := foldl_contactsStep_stats rawContacts
    (rawCompanies.foldl EtlService.syncCompaniesStep (EtlService.startRun st))
  have hsplit := countP_email_split rawContacts
  refine ⟨⟨_, rfl⟩, rfl, rfl, ?_, ?_, ?_⟩
  · show (rawContacts.foldl EtlService.syncContactsStep
        (rawCompanies.foldl EtlService.syncCompaniesStep
          (EtlService.startRun st))).syncStatus.contactsProcessed
      = rawContacts.length - 1
    rw [hts2.1, hcf.1]
    show 0 + rawContacts.countP (fun r => cleanString r.email != "")
      = rawContacts.length - 1
    omega
  · show (rawContacts.foldl EtlService.syncContactsStep
        (rawCompanies.foldl EtlService.syncCompaniesStep
          (EtlService.startRun st))).syncStatus.errors = []
    rw [hts2.2.2.1, hcf.2.1]
    rfl
  · show (rawContacts.foldl EtlService.syncContactsStep
        (rawCompanies.foldl EtlService.syncCompaniesStep
          (EtlService.startRun st))).contactSkips.length
      = st.contactSkips.length + 1
    rw [hts2.2.1, hcf.2.2.2.2.2]
    show st.contactSkips.length
        + rawContacts.countP (fun r => cleanString r.email == "")
      = st.contactSkips.length + 1
    omega

/-- Witness for C5 at the three-record fetch with one malformed email. -/
theorem c5_witness :
    (∃ resp : EtlSyncResponse,
      (EtlService.syncCrmData envOneMalformed idleState).1 = .ok resp)
    ∧ (EtlService.syncCrmData envOneMalformed idleState).2.syncStatus.contactsProcessed
        = 2
    ∧ (EtlService.syncCrmData envOneMalformed idleState).2.syncStatus.errors = []
    ∧ (EtlService.syncCrmData envOneMalformed idleState).2.contactSkips.length = 1 := by
  have h := c5_partial_failure_isolation envOneMalformed idleState [] mixedContacts
    rfl rfl rfl rfl (by decide)
  exact ⟨h.1, h.2.2.2.1, h.2.2.2.2.1, h.2.2.2.2.2⟩

/-- A resolved company reference on a transformed contact names the local id
of a company found in the store the transform ran against. -/
theorem transformContact_company_ref (db : Database) (raw : HubSpotContact) (cid : Nat)
    (h : (EtlService.transformHubspotContact db raw).company_id = some cid) :
    ∃ comp ∈ db.companies, comp.id = cid := by
  simp only [EtlService.transformHubspotContact] at h
  cases hassoc : raw.associatedcompanyid with
  | none =>
    rw [hassoc] at h
    simp at h
  | some assoc =>
    rw [hassoc] at h
    by_cases he : assoc == ""
    · simp [he] at h
    · simp only [he, Bool.false_eq_true, if_false, if_neg, Option.map_eq_some'] at h
      obtain ⟨comp, hfind, hid⟩ := h
      exact ⟨comp, List.mem_of_find?_eq_some hfind, hid⟩

/-- The contact loop never writes the company table. -/
theorem syncContactsStep_companies (st : EtlState) (raw : HubSpotContact) :
    (EtlService.syncContactsStep st raw).db.companies = st.db.companies := by
  simp only [EtlService.syncContactsStep]
  split
  · exact upsertContact_companies_eq st.db _
  · rfl

/-- The whole contact phase never writes the company table. -/
theorem foldl_contactsStep_companies (raws : List HubSpotContact) (st : EtlState) :
    (raws.foldl EtlService.syncContactsStep st).db.companies = st.db.companies := by
  induction raws generalizing st with
  | nil => rfl
  | cons raw rest ih =>
    rw [List.foldl_cons, ih]
    exact syncContactsStep_companies st raw

theorem syncContactsTrace_cons_skip (st : EtlState) (raw : HubSpotContact)
    (rest : List HubSpotContact) (h : cleanString raw.email = "") :
    EtlService.syncContactsTrace st (raw :: rest)
      = EtlService.syncContactsTrace (EtlService.syncContactsStep st raw) rest := by
  simp only [EtlService.syncContactsTrace]
  rw [if_neg (by simp [transformContact_email, h])]

theorem syncContactsTrace_cons_processed (st : EtlState) (raw : HubSpotContact)
    (rest : List HubSpotContact) (h : cleanString raw.email ≠ "") :
    EtlService.syncContactsTrace st (raw :: rest)
      = EtlService.transformHubspotContact st.db raw
        :: EtlService.syncContactsTrace (EtlService.syncContactsStep st raw) rest := by
  simp only [EtlService.syncContactsTrace]
  rw [if_pos (by simpa [bne_iff_ne, transformContact_email] using h)]

/-- Every candidate the contact phase upserts resolves its company
reference, if any, against the company store the phase started with. -/
theorem syncContactsTrace_refs (raws : List HubSpotContact) (st : EtlState) :
    ∀ cd ∈ EtlService.syncContactsTrace st raws, ∀ cid, cd.company_id = some cid →
      ∃ comp ∈ st.db.companies, comp.id = cid := by
  induction raws generalizing st with
  | nil =>
    intro cd hmem
    cases hmem
  | cons raw rest ih =>
    intro cd hmem cid hcid
    by_cases h : cleanString raw.email = ""
    · rw [syncContactsTrace_cons_skip st raw rest h] at hmem
      have hrec := ih (EtlService.syncContactsStep st raw) cd hmem cid hcid
      rwa [syncContactsStep_companies st raw] at hrec
    · rw [syncContactsTrace_cons_processed st raw rest h] at hmem
      rcases List.mem_cons.mp hmem with hcd | hcd
      · subst hcd
        exact transformContact_company_ref st.db raw cid hcid
      · have hrec := ih (EtlService.syncContactsStep st raw) cd hcd cid hcid
        rwa [syncContactsStep_companies st raw] at hrec

/-- C4: within a successful run the company phase completes before the
contact phase starts — the company store every contact upsert observes is
exactly the store left by the completed company phase, which is also the
run's final company store — and every candidate the contact phase upserts
whose company reference is set references a company already present in that
store at the time of the upsert. -/
theorem c4_company_phase_before_contacts_refs_resolved
    (env : HubSpotEnv) (st : EtlState)
    (rawCompanies : List HubSpotCompany) (rawContacts : List HubSpotContact)
    (hrun : st.syncStatus.isRunning = false)
    (hhealth : env.healthRequest = .ok ())
    (hcs : HubSpotApiService.getAllCompanies env = .ok rawCompanies)
    (hts : HubSpotApiService.getAllContacts env = .ok rawContacts) :
    (EtlService.syncCrmData env st).2.db.companies
        = (rawCompanies.foldl EtlService.syncCompaniesStep
            (EtlService.startRun st)).db.companies
    ∧ ∀ cd ∈ EtlService.syncContactsTrace
          (rawCompanies.foldl EtlService.syncCompaniesStep (EtlService.startRun st))
          rawContacts,
        ∀ cid, cd.company_id = some cid →
          ∃ comp ∈ (rawCompanies.foldl EtlService.syncCompaniesStep
              (EtlService.startRun st)).db.companies, comp.id = cid := by
  constructor
  · rw [syncCrmData_ok_eq env st rawCompanies rawContacts hrun hhealth hcs hts]
    exact foldl_contactsStep_companies rawContacts
      (rawCompanies.foldl EtlService.syncCompaniesStep (EtlService.startRun st))
  · exact syncContactsTrace_refs rawContacts
      (rawCompanies.foldl EtlService.syncCompaniesStep (EtlService.startRun st))

/-- Witness for C4 at the one-company, one-referencing-contact fixture: the
transformed contact carries `company_id = some 0`, and company 0 is indeed
in the post-company-phase store. -/
theorem c4_witness :
    (EtlService.syncCrmData envAssoc idleState).2.db.companies
        = ([rawCompanyAcme].foldl EtlService.syncCompaniesStep
            (EtlService.startRun idleState)).db.companies
    ∧ ∃ comp ∈ ([rawCompanyAcme].foldl EtlService.syncCompaniesStep
          (EtlService.startRun idleState)).db.companies, comp.id = 0 := by
  have h := c4_company_phase_before_contacts_refs_resolved envAssoc idleState
    [rawCompanyAcme] [rawContactPat] rfl rfl rfl rfl
  refine ⟨h.1, h.2
    { hubspot_id := "p-1", firstname := some "Pat", lastname := none
      email := "pat@acme.io", company_id := some 0 }
    (by decide) 0 rfl⟩

/-- The create path of the company upsert, written out. -/
theorem upsertCompany_create (db : Database) (cd : CreateCompany)
    (hnone : CompanyRepository.findByHubspotId db cd.hubspot_id = none) :
    CompanyRepository.upsertByHubspotId db cd
      = ({ id := db.nextId, hubspot_id := cd.hubspot_id, name := cd.name
           domain := cd.domain, created_at := db.clock },
         { db with
           companies := db.companies
             ++ [{ id := db.nextId, hubspot_id := cd.hubspot_id, name := cd.name
                   domain := cd.domain, created_at := db.clock }]
           nextId := db.nextId + 1
           clock := db.clock + 1 }) := by
  simp only [CompanyRepository.upsertByHubspotId, hnone, CompanyRepository.create]

/-- The update path of the company upsert: with pairwise distinct local ids,
the returned record is the found row with all three candidate fields
applied, and the store is the pointwise rewrite of rows carrying that id. -/
theorem upsertCompany_found (db : Database) (cd : CreateCompany) (c0 : Company)
    (hnd : (db.companies.map (fun c => c.id)).Nodup)
    (hf : CompanyRepository.findByHubspotId db cd.hubspot_id = some c0) :
    (CompanyRepository.upsertByHubspotId db cd).1
      = CompanyRepository.applyUpdate
          { hubspot_id := some cd.hubspot_id, name := some cd.name
            domain := some cd.domain } c0
    ∧ (CompanyRepository.upsertByHubspotId db cd).2
      = { db with
          companies := db.companies.map
            (fun c => if c.id == c0.id then
              CompanyRepository.applyUpdate
                { hubspot_id := some cd.hubspot_id, name := some cd.name
                  domain := some cd.domain } c
              else c) } := by
  have hc0 : c0 ∈ db.companies := List.mem_of_find?_eq_some hf
  have hid : CompanyRepository.findById db c0.id = some c0 :=
    find?_id_of_mem_nodup_company db.companies hnd c0 hc0
  have hid2 : db.companies.find? (fun x => x.id == c0.id) = some c0 := hid
  constructor
  · simp only [CompanyRepository.upsertByHubspotId, hf, CompanyRepository.update, hid,
      Option.isNone_some, Bool.false_and, Bool.false_eq_true, if_false,
      CompanyRepository.findById, find?_map_update_company, hid2,
      Option.map_some, Option.getD_some]
    rfl
  · simp only [CompanyRepository.upsertByHubspotId, hf, CompanyRepository.update, hid,
      Option.isNone_some, Bool.false_and, Bool.false_eq_true, if_false]

/-- One company upsert of a candidate whose external id is stored exactly
once keeps it stored exactly once and keeps local ids pairwise distinct. -/
theorem upsertCompany_preserves_invariant (db : Database) (cd : CreateCompany)
    (hcount : db.companies.countP (fun c => c.hubspot_id == cd.hubspot_id) = 1)
    (hnd : (db.companies.map (fun c => c.id)).Nodup) :
    ((CompanyRepository.upsertByHubspotId db cd).2.companies.countP
        (fun c => c.hubspot_id == cd.hubspot_id) = 1)
    ∧ (((CompanyRepository.upsertByHubspotId db cd).2.companies.map
        (fun c => c.id)).Nodup) := by
  have hpos : 0 < db.companies.countP (fun c => c.hubspot_id == cd.hubspot_id) := by
    omega
  have hex := List.countP_pos_iff.mp hpos
  have hsome : (db.companies.find? (fun c => c.hubspot_id == cd.hubspot_id)).isSome :=
    List.find?_isSome.mpr hex
  obtain ⟨c0, hf0⟩ := Option.isSome_iff_exists.mp hsome
  have hf : CompanyRepository.findByHubspotId db cd.hubspot_id = some c0 := hf0
  have hc0 : c0 ∈ db.companies := List.mem_of_find?_eq_some hf0
  have hpredc0 : (c0.hubspot_id == cd.hubspot_id) = true := by
    have hp := List.find?_some hf0
    simpa using hp
  have hfound := upsertCompany_found db cd c0 hnd hf
  rw [hfound.2]
  constructor
  · show (db.companies.map
        (fun c => if c.id == c0.id then
          CompanyRepository.applyUpdate
            { hubspot_id := some cd.hubspot_id, name := some cd.name
              domain := some cd.domain } c
          else c)).countP (fun c => c.hubspot_id == cd.hubspot_id) = 1
    rw [List.countP_map]
    refine Eq.trans (List.countP_congr ?_) hcount
    intro x hx
    by_cases hxid : x.id = c0.id
    · have hxc0 : x = c0 := List.inj_on_of_nodup_map hnd hx hc0 hxid
      subst hxc0
      simp [Function.comp, hpredc0, CompanyRepository.applyUpdate]
    · simp [Function.comp, hxid]
  · show ((db.companies.map
        (fun c => if c.id == c0.id then
          CompanyRepository.applyUpdate
            { hubspot_id := some cd.hubspot_id, name := some cd.name
              domain := some cd.domain } c
          else c)).map (fun c => c.id)).Nodup
    rw [List.map_map]
    have hids : ∀ x ∈ db.companies,
        ((fun c => c.id) ∘
          (fun c => if c.id == c0.id then
            CompanyRepository.applyUpdate
              { hubspot_id := some cd.hubspot_id, name := some cd.name
                domain := some cd.domain } c
            else c)) x = x.id := by
      intro x hx
      by_cases hxid : x.id = c0.id
      · simp [Function.comp, hxid, CompanyRepository.applyUpdate]
      · simp [Function.comp, hxid]
    rw [List.map_congr_left hids]
    exact hnd

/-- C1: starting from any store holding no company with the candidate's
external id (ids pairwise distinct and below the id supply), upserting
candidate `A` then candidate `B` for the same external id leaves exactly
one stored company with that external id, whose name is `B`'s and whose
local id and creation timestamp are the ones the first upsert assigned; the
second upsert returns the same local id and creation timestamp as the
first; and repeating the upsert any number of times keeps exactly one
record for that external id. -/
theorem c1_upsert_idempotent_convergent
    (db : Database) (A B : CreateCompany)
    (hAB : A.hubspot_id = B.hubspot_id)
    (hnone : CompanyRepository.findByHubspotId db A.hubspot_id = none)
    (hnd : (db.companies.map (fun c => c.id)).Nodup)
    (hfresh : ∀ c ∈ db.companies, c.id < db.nextId) :
    (∃ c, (CompanyRepository.upsertByHubspotId
          (CompanyRepository.upsertByHubspotId db A).2 B).2.companies.filter
          (fun c => c.hubspot_id == B.hubspot_id) = [c]
      ∧ c.name = B.name
      ∧ c.id = (CompanyRepository.upsertByHubspotId db A).1.id
      ∧ c.created_at = (CompanyRepository.upsertByHubspotId db A).1.created_at)
    ∧ (CompanyRepository.upsertByHubspotId
        (CompanyRepository.upsertByHubspotId db A).2 B).1.id
        = (CompanyRepository.upsertByHubspotId db A).1.id
    ∧ (CompanyRepository.upsertByHubspotId
        (CompanyRepository.upsertByHubspotId db A).2 B).1.created_at
        = (CompanyRepository.upsertByHubspotId db A).1.created_at
    ∧ ∀ n : Nat,
        ((fun d => (CompanyRepository.upsertByHubspotId d B).2)^[n]
          (CompanyRepository.upsertByHubspotId
            (CompanyRepository.upsertByHubspotId db A).2 B).2).companies.countP
          (fun c => c.hubspot_id == B.hubspot_id) = 1 := by
  have hnone2 : db.companies.find? (fun c => c.hubspot_id == A.hubspot_id) = none := hnone
  have hnoneAll := List.find?_eq_none.mp hnone2
  have hnoneAllB : ∀ x ∈ db.companies, ¬ (x.hubspot_id == B.hubspot_id) = true := by
    intro x hx
    rw [← hAB]
    exact hnoneAll x hx
  have hnone3 : db.companies.find? (fun c => c.hubspot_id == B.hubspot_id) = none :=
    List.find?_eq_none.mpr hnoneAllB
  have hcreate := upsertCompany_create db A hnone
  set cA : Company :=
    { id := db.nextId, hubspot_id := A.hubspot_id, name := A.name
      domain := A.domain, created_at := db.clock } with hcA
  set db1 : Database :=
    { db with
      companies := db.companies ++ [cA]
      nextId := db.nextId + 1
      clock := db.clock + 1 } with hdb1
  have hr1 : CompanyRepository.upsertByHubspotId db A = (cA, db1) := hcreate
  rw [hr1]
  have hf1 : CompanyRepository.findByHubspotId db1 B.hubspot_id = some cA := by
    show (db.companies ++ [cA]).find? (fun c => c.hubspot_id == B.hubspot_id) = some cA
    rw [List.find?_append, hnone3]
    simp [hcA, hAB]
  have hnd1 : (db1.companies.map (fun c => c.id)).Nodup := by
    show ((db.companies ++ [cA]).map (fun c => c.id)).Nodup
    rw [List.map_append]
    refine List.nodup_append.mpr ⟨hnd, List.nodup_singleton _, ?_⟩
    intro a ha hb
    obtain ⟨c, hc, hca⟩ := List.mem_map.mp ha
    have hlt := hfresh c hc
    simp [hcA] at hb
    omega
  have hfound := upsertCompany_found db1 B cA hnd1 hf1
  set uB : UpdateCompany :=
    { hubspot_id := some B.hubspot_id, name := some B.name
      domain := some B.domain } with huB
  set cB : Company := CompanyRepository.applyUpdate uB cA with hcB
  have hmapeq : ∀ x ∈ db.companies,
      (if x.id == cA.id then CompanyRepository.applyUpdate uB x else x) = x := by
    intro x hx
    rw [if_neg]
    have hlt := hfresh x hx
    simp [hcA]
    omega
  have hmap : db1.companies.map
      (fun c => if c.id == cA.id then CompanyRepository.applyUpdate uB c else c)
      = db.companies ++ [cB] := by
    show (db.companies ++ [cA]).map _ = _
    rw [List.map_append]
    congr 1
    · rw [List.map_congr_left hmapeq, List.map_id']
    · simp [hcB]
  have hcomp2 : (CompanyRepository.upsertByHubspotId db1 B).2.companies
      = db.companies ++ [cB] := by
    rw [hfound.2]
    exact hmap
  have hpredB : (cB.hubspot_id == B.hubspot_id) = true := by
    simp [hcB, huB, CompanyRepository.applyUpdate]
  refine ⟨⟨cB, ?_, ?_, ?_, ?_⟩, ?_, ?_, ?_⟩
  · show ((CompanyRepository.upsertByHubspotId db1 B).2.companies.filter
        (fun c => c.hubspot_id == B.hubspot_id)) = [cB]
    rw [hcomp2, List.filter_append, List.filter_eq_nil_iff.mpr hnoneAllB]
    simp [hpredB]
  · show cB.name = B.name
    simp [hcB, huB, CompanyRepository.applyUpdate]
  · show cB.id = (cA, db1).1.id
    simp [hcB, companyApplyUpdate_id]
  · show cB.created_at = (cA, db1).1.created_at
    simp [hcB, companyApplyUpdate_created_at]
  · show (CompanyRepository.upsertByHubspotId db1 B).1.id = (cA, db1).1.id
    rw [hfound.1]
    simp [hcB, companyApplyUpdate_id]
  · show (CompanyRepository.upsertByHubspotId db1 B).1.created_at
        = (cA, db1).1.created_at
    rw [hfound.1]
    simp [hcB, companyApplyUpdate_created_at]
  · have hnd2 : ((CompanyRepository.upsertByHubspotId db1 B).2.companies.map
        (fun c => c.id)).Nodup := by
      rw [hcomp2, List.map_append]
      refine List.nodup_append.mpr ⟨hnd, List.nodup_singleton _, ?_⟩
      intro a ha hb
      obtain ⟨c, hc, hca⟩ := List.mem_map.mp ha
      have hlt := hfresh c hc
      simp [hcB, hcA, CompanyRepository.applyUpdate] at hb
      omega
    have hcount2 : (CompanyRepository.upsertByHubspotId db1 B).2.companies.countP
        (fun c => c.hubspot_id == B.hubspot_id) = 1 := by
      rw [hcomp2, List.countP_append, List.countP_eq_zero.mpr hnoneAllB,
        List.countP_singleton, if_pos hpredB]
    have hiter : ∀ m : Nat,
        (((fun d => (CompanyRepository.upsertByHubspotId d B).2)^[m]
            (CompanyRepository.upsertByHubspotId db1 B).2).companies.countP
          (fun c => c.hubspot_id == B.hubspot_id) = 1)
        ∧ ((((fun d => (CompanyRepository.upsertByHubspotId d B).2)^[m]
            (CompanyRepository.upsertByHubspotId db1 B).2).companies.map
          (fun c => c.id)).Nodup) := by
      intro m
      induction m with
      | zero => exact ⟨hcount2, hnd2⟩
      | succ k ihk =>
        rw [Function.iterate_succ_apply']
        exact upsertCompany_preserves_invariant _ B ihk.1 ihk.2
    intro n
    exact (hiter n).1

/-- Witness for C1 at the empty store with candidates `A` then `B` for
external id `hubspot-123`. -/
theorem c1_witness :
    (∃ c, (CompanyRepository.upsertByHubspotId
          (CompanyRepository.upsertByHubspotId emptyDb companyCandA).2
          companyCandB).2.companies.filter
          (fun c => c.hubspot_id == companyCandB.hubspot_id) = [c]
      ∧ c.name = companyCandB.name
      ∧ c.id = (CompanyRepository.upsertByHubspotId emptyDb companyCandA).1.id
      ∧ c.created_at
          = (CompanyRepository.upsertByHubspotId emptyDb companyCandA).1.created_at)
    ∧ (CompanyRepository.upsertByHubspotId
        (CompanyRepository.upsertByHubspotId emptyDb companyCandA).2 companyCandB).1.id
        = (CompanyRepository.upsertByHubspotId emptyDb companyCandA).1.id
    ∧ ((fun d => (CompanyRepository.upsertByHubspotId d companyCandB).2)^[2]
        (CompanyRepository.upsertByHubspotId
          (CompanyRepository.upsertByHubspotId emptyDb companyCandA).2
          companyCandB).2).companies.countP
        (fun c => c.hubspot_id == companyCandB.hubspot_id) = 1 := by
  have h := c1_upsert_idempotent_convergent emptyDb companyCandA companyCandB
    rfl rfl (by decide) (by decide)
  exact ⟨h.1, h.2.1, h.2.2.2 2⟩
